import Mathlib

/-!
# Verification of the P2Green geospatial supply/demand aggregation engine

Shallow embedding, in Lean 4, of the algorithmic core of the repository:

* `src/hooks/useLocationsData.js` (two versions of the module are present in
  the repository, separated by a document marker; both are embedded below,
  the second version's definitions carry a `V2` suffix or live in the `V2`
  namespace),
* `src/LandUseMap.jsx` (Overpass retry loop, catchment bounding boxes,
  centroid-in-circle test, and the proportional attribution loop).

JavaScript numbers are modelled as `Option ℚ` where `none` stands for the
non-finite values (`NaN`, `±Infinity`): every use in the source guards with
`Number.isFinite`, which collapses all non-finite values into the same
rejected class.  External library calls (`turf.centroid`, `turf.area`,
`turf.distance`, `Math.cos`) are modelled as explicit function parameters or
precomputed record fields, so that every theorem quantifies over all possible
behaviours of those libraries.  All definitions are executable.
-/

set_option maxRecDepth 10000

/- ================= JS string primitives ================= -/

/-- JS whitespace as used by `String.prototype.trim` (the inputs exercised by
the engine only contain these ASCII whitespace characters). -/
def isJsSpace (c : Char) : Bool :=
  c = ' ' || c = '\t' || c = '\n' || c = '\r'

/-- `String.prototype.trim` on the character list. -/
def jsTrimChars (l : List Char) : List Char :=
  ((l.dropWhile isJsSpace).reverse.dropWhile isJsSpace).reverse

/-- `String.prototype.trim`. -/
def jsTrim (s : String) : String := ⟨jsTrimChars s.data⟩

/-- Lower-case table for `String.prototype.toLowerCase`, covering ASCII, the
Latin-1 letters and the Greek letters that occur in the engine's data
(canonical province tables and the test rows of the specification). -/
def lowerPairs : List (Char × Char) :=
  [('A', 'a'), ('B', 'b'), ('C', 'c'), ('D', 'd'), ('E', 'e'),
   ('F', 'f'), ('G', 'g'), ('H', 'h'), ('I', 'i'), ('J', 'j'),
   ('K', 'k'), ('L', 'l'), ('M', 'm'), ('N', 'n'), ('O', 'o'),
   ('P', 'p'), ('Q', 'q'), ('R', 'r'), ('S', 's'), ('T', 't'),
   ('U', 'u'), ('V', 'v'), ('W', 'w'), ('X', 'x'), ('Y', 'y'),
   ('Z', 'z'),
   ('À', 'à'), ('Á', 'á'), ('Â', 'â'), ('Ã', 'ã'), ('Ä', 'ä'),
   ('Å', 'å'), ('Ç', 'ç'), ('È', 'è'), ('É', 'é'), ('Ê', 'ê'),
   ('Ë', 'ë'), ('Ì', 'ì'), ('Í', 'í'), ('Î', 'î'), ('Ï', 'ï'),
   ('Ñ', 'ñ'), ('Ò', 'ò'), ('Ó', 'ó'), ('Ô', 'ô'), ('Õ', 'õ'),
   ('Ö', 'ö'), ('Ù', 'ù'), ('Ú', 'ú'), ('Û', 'û'), ('Ü', 'ü'),
   ('Ý', 'ý'),
   ('Α', 'α'), ('Β', 'β'), ('Γ', 'γ'), ('Δ', 'δ'), ('Ε', 'ε'),
   ('Ζ', 'ζ'), ('Η', 'η'), ('Θ', 'θ'), ('Ι', 'ι'), ('Κ', 'κ'),
   ('Λ', 'λ'), ('Μ', 'μ'), ('Ν', 'ν'), ('Ξ', 'ξ'), ('Ο', 'ο'),
   ('Π', 'π'), ('Ρ', 'ρ'), ('Σ', 'σ'), ('Τ', 'τ'), ('Υ', 'υ'),
   ('Φ', 'φ'), ('Χ', 'χ'), ('Ψ', 'ψ'), ('Ω', 'ω'),
   ('Ά', 'ά'), ('Έ', 'έ'), ('Ή', 'ή'), ('Ί', 'ί'), ('Ό', 'ό'),
   ('Ύ', 'ύ'), ('Ώ', 'ώ'), ('Ϊ', 'ϊ'), ('Ϋ', 'ϋ')]

/-- `String.prototype.toLowerCase`, character-wise; characters outside the
table are unchanged. -/
def jsCharLower (c : Char) : Char :=
  ((lowerPairs.find? (fun p => p.1 = c)).map (fun p => p.2)).getD c

/-- `String.prototype.toUpperCase`, character-wise, covering the ASCII
letters (the only characters that the country lookup tables contain). -/
def jsCharUpper (c : Char) : Char :=
  ((lowerPairs.find? (fun p => p.2 = c)).map (fun p => p.1)).getD c

def jsToLower (s : String) : String := ⟨s.data.map jsCharLower⟩

def jsToUpper (s : String) : String := ⟨s.data.map jsCharUpper⟩

/-- `normalize("NFD")` followed by stripping the combining marks
U+0300–U+036F, character-wise for the precomposed Latin and Greek letters
that occur in the engine's data. -/
def stripAccent (c : Char) : Char :=
  match c with
  | 'à' => 'a' | 'á' => 'a' | 'â' => 'a' | 'ã' => 'a' | 'ä' => 'a'
  | 'å' => 'a' | 'ç' => 'c' | 'è' => 'e' | 'é' => 'e' | 'ê' => 'e'
  | 'ë' => 'e' | 'ì' => 'i' | 'í' => 'i' | 'î' => 'i' | 'ï' => 'i'
  | 'ñ' => 'n' | 'ò' => 'o' | 'ó' => 'o' | 'ô' => 'o' | 'õ' => 'o'
  | 'ö' => 'o' | 'ù' => 'u' | 'ú' => 'u' | 'û' => 'u' | 'ü' => 'u'
  | 'ý' => 'y' | 'ÿ' => 'y'
  | 'ά' => 'α' | 'έ' => 'ε' | 'ή' => 'η' | 'ί' => 'ι' | 'ό' => 'ο'
  | 'ύ' => 'υ' | 'ώ' => 'ω' | 'ϊ' => 'ι' | 'ϋ' => 'υ' | 'ΐ' => 'ι'
  | 'ΰ' => 'υ'
  | c => c

/-- A standalone combining mark in the stripped range U+0300–U+036F. -/
def isCombining (c : Char) : Bool :=
  0x300 ≤ c.toNat && c.toNat ≤ 0x36F

/-- `x.replace(",", ".")`: JavaScript `replace` with a string pattern
replaces only the FIRST occurrence. -/
def replaceFirstCommaChars : List Char → List Char
  | [] => []
  | ',' :: rest => '.' :: rest
  | c :: rest => c :: replaceFirstCommaChars rest

def replaceFirstComma (s : String) : String := ⟨replaceFirstCommaChars s.data⟩

/- ================= JS Number(string) model ================= -/

/-- Value of a nonempty digit string. -/
def digitsVal : List Char → Option ℕ
  | [] => none
  | l =>
    if l.all Char.isDigit then
      some (l.foldl (fun acc c => 10 * acc + (c.toNat - '0'.toNat)) 0)
    else none

/-- Parse an unsigned decimal literal `digits`, `digits.digits`, `.digits`
or `digits.` (at least one digit overall). -/
def parseUnsignedDec (l : List Char) : Option ℚ :=
  let intPart := l.takeWhile (· ≠ '.')
  let rest := l.dropWhile (· ≠ '.')
  match rest with
  | [] =>
    (digitsVal intPart).map (fun n => (n : ℚ))
  | '.' :: frac =>
    if frac.all Char.isDigit ∧ intPart.all Char.isDigit
        ∧ (intPart ≠ [] ∨ frac ≠ []) then
      let iv : ℕ := (intPart.foldl (fun acc c => 10 * acc + (c.toNat - '0'.toNat)) 0)
      let fv : ℕ := (frac.foldl (fun acc c => 10 * acc + (c.toNat - '0'.toNat)) 0)
      some ((iv : ℚ) + (fv : ℚ) / (10 : ℚ) ^ frac.length)
    else none
  | _ => none

/-- Model of the JavaScript `Number(string)` conversion restricted to finite
decimal literals: leading/trailing whitespace is ignored, the empty string
converts to `0`, an optional sign precedes a decimal literal, and everything
else is `NaN` — returned as `none`.  (`Infinity`, hex/binary/octal literals
and exponent notation also map to `none`; the engine's callers immediately
discard every non-finite result with `Number.isFinite`, so `none` faithfully
stands for "rejected by the caller" on all inputs the engine handles.) -/
def jsNumber (s : String) : Option ℚ :=
  let t := jsTrimChars s.data
  match t with
  | [] => some 0
  | '+' :: rest => parseUnsignedDec rest
  | '-' :: rest => (parseUnsignedDec rest).map (fun q => -q)
  | l => parseUnsignedDec l

/- ================= Row model ================= -/

/-- A parsed CSV row: a JavaScript object mapping column names to string
values, modelled as an association list with unique keys (first match
wins on lookup, as for JS own properties). -/
abbrev Row := List (String × String)

/-- `row?.[k]` on the row object: `none` models `undefined`. -/
def rowGet (r : Row) (k : String) : Option String :=
  (r.find? (fun p => p.1 = k)).map (fun p => p.2)

/- ================= useLocationsData.js, first version ================= -/

/-- `ALLOWED_COUNTRIES` (first version). -/
def allowedCountries : List String := ["France", "Italy", "Hungary", "Greece"]

/-- `COUNTRY_MAP` (first version), own properties only. -/
def countryMap : List (String × String) :=
  [("FR", "France"), ("IT", "Italy"), ("HU", "Hungary"), ("EL", "Greece"),
   ("GR", "Greece"), ("Greece", "Greece"), ("France", "France"),
   ("Italy", "Italy"), ("Hungary", "Hungary")]

def lookupTable (m : List (String × String)) (k : String) : Option String :=
  (m.find? (fun p => p.1 = k)).map (fun p => p.2)

/-- `normalizeCountry` (first version).  The `null` argument case is
represented by the empty string, which the function already maps to `""`. -/
def normalizeCountry (v : String) : String :=
  let s := jsTrim v
  if s = "" then ""
  else
    let upper := jsToUpper s
    match lookupTable countryMap upper with
    | some c => c
    | none =>
      match lookupTable countryMap s with
      | some c => c
      | none => s

/-- The inner `norm` closure of `normalizeProvinceName`: lower-case, NFD +
combining-mark strip, `[,_-]` to spaces, whitespace runs collapsed, trim. -/
def provinceFoldKey (s : String) : String :=
  let l := s.data.map jsCharLower
  let l := (l.map stripAccent).filter (fun c => !isCombining c)
  let l := l.map (fun c => if c = ',' || c = '_' || c = '-' then ' ' else c)
  let rec collapse : Bool → List Char → List Char
    | _, [] => []
    | prevSpace, c :: rest =>
      if c = ' ' then
        if prevSpace then collapse true rest else ' ' :: collapse true rest
      else c :: collapse false rest
  ⟨jsTrimChars (collapse false l)⟩

/-- The Greek canonical-name lookup table `MAP` of `normalizeProvinceName`. -/
def greekProvinceMap : List (String × String) :=
  [("αττικη", "Attica"),
   ("ανατολικη μακεδονια θρακη", "Eastern Macedonia and Thrace"),
   ("ανατολικη μακεδονια και θρακη", "Eastern Macedonia and Thrace"),
   ("κεντρικη μακεδονια", "Central Macedonia"),
   ("δυτικη μακεδονια", "Western Macedonia"),
   ("θεσσαλια", "Thessaly"),
   ("ηπειρος", "Epirus"),
   ("ιονια νησια", "Ionian Islands"),
   ("δυτικη ελλαδα", "Western Greece"),
   ("στερεα ελλαδα", "Central Greece"),
   ("πελοποννησος", "Peloponnese"),
   ("βορειο αιγαιο", "North Aegean"),
   ("νοτιο αιγαιο", "South Aegean"),
   ("κρητη", "Crete")]

/-- Index of the first occurrence of `" - "` (JS `indexOf`). -/
def findDashSep : List Char → Option Nat
  | [] => none
  | ' ' :: '-' :: ' ' :: _ => some 0
  | _ :: rest => (findDashSep rest).map (· + 1)

/-- `s.replace(/^A(?=[Ͱ-Ͽ])/u, "Α")`. -/
def fixGreekLeadingA (l : List Char) : List Char :=
  match l with
  | 'A' :: c :: rest =>
    if 0x370 ≤ c.toNat && c.toNat ≤ 0x3FF then 'Α' :: c :: rest
    else 'A' :: c :: rest
  | l => l

/-- `normalizeProvinceName` (first version). -/
def normalizeProvinceName (p : String) : String :=
  let s := jsTrim p
  if s = "" then ""
  else
    let s :=
      match findDashSep s.data with
      | some i => jsTrim ⟨s.data.drop (i + 3)⟩
      | none => s
    let s : String := ⟨fixGreekLeadingA s.data⟩
    let key := provinceFoldKey s
    match lookupTable greekProvinceMap key with
    | some canon => canon
    | none => s

/-- `toNum` (first version), on a string argument: trim, empty is `null`,
first `,` becomes `.`, then `Number`, keeping only finite results. -/
def toNumV1 (s : String) : Option ℚ :=
  let t := jsTrim s
  if t = "" then none
  else jsNumber (replaceFirstComma t)

/-- `toNum` (first version) on a possibly-`undefined` argument
(`toNum(null)` is `null`). -/
def toNumV1opt (x : Option String) : Option ℚ :=
  match x with
  | none => none
  | some s => toNumV1 s

/-- `pick(row, keys)` (first version): the first key whose value is present
and nonempty after trimming; the untrimmed value is returned. -/
def pick (row : Row) (keys : List String) : Option String :=
  match keys with
  | [] => none
  | k :: ks =>
    match rowGet row k with
    | some v => if jsTrim v ≠ "" then some v else pick row ks
    | none => pick row ks

/-- The three-way range test of the `"lat, lon"` fallback of `parseLatLon`
(first version): keep the order if valid, flip if only the swapped order is
valid, otherwise leave the previously resolved values. -/
def locFallback (a b : ℚ) (lat0 lon0 : Option ℚ) : Option ℚ × Option ℚ :=
  if |a| ≤ 90 ∧ |b| ≤ 180 then (some a, some b)
  else if |b| ≤ 90 ∧ |a| ≤ 180 then (some b, some a)
  else (lat0, lon0)

/-- The final two guards of `parseLatLon` (first version): a missing
coordinate nulls both, and exactly `(0, 0)` is rejected as the unset
sentinel. -/
def rejectNullOrZero : Option ℚ × Option ℚ → Option ℚ × Option ℚ
  | (some la, some lo) =>
    if la = 0 ∧ lo = 0 then (none, none) else (some la, some lo)
  | _ => (none, none)

/-- `parseLatLon` (first version): explicit columns first, `location`
string fallback with swap correction, and rejection of `(0, 0)`. -/
def parseLatLon (row : Row) : Option ℚ × Option ℚ :=
  let latRaw := pick row ["lat", "latitude", "Latitude", "__lat"]
  let lonRaw := pick row ["lon", "lng", "longitude", "Longitude", "__lon"]
  let lat0 := toNumV1opt latRaw
  let lon0 := toNumV1opt lonRaw
  let latlon1 :=
    if (lat0.isNone || lon0.isNone) && (rowGet row "location").isSome then
      let parts := (((rowGet row "location").getD "").splitOn ",").map jsTrim
      let parts := parts.filter (fun s => s ≠ "")
      match parts with
      | pa :: pb :: _ =>
        match toNumV1 pa, toNumV1 pb with
        | some a, some b => locFallback a b lat0 lon0
        | _, _ => (lat0, lon0)
      | _ => (lat0, lon0)
    else (lat0, lon0)
  rejectNullOrZero latlon1

/-- `normalizeRowCountryProvince` (first version), returning the normalized
`(country, province)` pair written onto the row. -/
def normalizeRowCountryProvince (row : Row) : String × String :=
  let countryRaw :=
    ((pick row ["country", "Country"]).orElse
      (fun _ => pick row
        ["country_code", "Country_code", "Country Code", "countryCode"])).getD ""
  let provinceRaw := (pick row ["province", "Province", "nuts2", "NUTS2"]).getD ""
  (normalizeCountry countryRaw, normalizeProvinceName provinceRaw)

/-- `matchesCountryProvince` (first version), applied to a row whose
`country`/`province` fields have already been normalized. -/
def matchesCountryProvince (rowCountry rowProvince selCountry selProvince : String) :
    Bool :=
  let rc := normalizeCountry rowCountry
  let rp := normalizeProvinceName rowProvince
  let wc := normalizeCountry selCountry
  let wp := normalizeProvinceName selProvince
  if wc ≠ "" ∧ rc ≠ wc then false
  else if wp ≠ "" ∧ rp ≠ wp then false
  else true

/-- The row-selection pipeline of `useLocationGroup` (first version):
normalize the row, then test it against the selected region. -/
def rowIncludedV1 (row : Row) (selCountry selProvince : String) : Bool :=
  let (c, p) := normalizeRowCountryProvince row
  matchesCountryProvince c p selCountry selProvince

/-- One entry of the `provincesByCountry` accumulator of
`useCountryProvinceIndex` (first version): add province `p` to country `c`'s
set, creating the country entry when absent. -/
def indexAdd (idx : List (String × List String)) (c p : String) :
    List (String × List String) :=
  if idx.any (fun e => e.1 = c) then
    idx.map (fun e => if e.1 = c then (c, if p ∈ e.2 then e.2 else e.2 ++ [p]) else e)
  else idx ++ [(c, [p])]

/-- Membership in the built country→province index. -/
def indexHas (idx : List (String × List String)) (c p : String) : Bool :=
  idx.any (fun e => e.1 = c && p ∈ e.2)

/-- The accumulation loop of `useCountryProvinceIndex` (first version) over
the already-fetched rows: normalize, keep rows with an allowed country and a
nonempty province, and union the provinces per country.  The final
locale-aware sort of the source only reorders the sets and is not part of
the membership structure the claims concern. -/
def indexStep (idx : List (String × List String)) (raw : Row) :
    List (String × List String) :=
  let cp := normalizeRowCountryProvince raw
  if cp.1 = "" then idx
  else if ¬ cp.1 ∈ allowedCountries then idx
  else if cp.2 = "" then idx
  else indexAdd idx cp.1 cp.2

def buildIndex (rows : List Row) : List (String × List String) :=
  rows.foldl indexStep []

/-- `useCountryProvinceIndex` (first version) over already-fetched dataset
contents: the WTP rows followed by every auxiliary dataset's rows are merged
into one row list before the accumulation loop (`allRows`). -/
def countryProvinceIndexV1 (wtpRows : List Row) (extraRows : List (List Row)) :
    List (String × List String) :=
  buildIndex (wtpRows ++ extraRows.flatten)

/- ============== useLocationsData.js, second version ============== -/

/-- `splitCSVLine` (second version): the hand-rolled CSV field splitter.
State: remaining characters, `inQuotes` flag, current field, fields so far.
A doubled quote contributes one literal quote even while the flag is
toggled off, exactly as in the source (the `""` test precedes the toggle). -/
def splitCSVLineAux : List Char → Bool → List Char → List String → List String
  | [], _, cur, out => out ++ [⟨cur⟩]
  | '"' :: '"' :: rest, inQ, cur, out => splitCSVLineAux rest inQ (cur ++ ['"']) out
  | '"' :: rest, inQ, cur, out => splitCSVLineAux rest (!inQ) cur out
  | ',' :: rest, inQ, cur, out =>
    if inQ then splitCSVLineAux rest inQ (cur ++ [',']) out
    else splitCSVLineAux rest inQ [] (out ++ [⟨cur⟩])
  | c :: rest, inQ, cur, out => splitCSVLineAux rest inQ (cur ++ [c]) out

def splitCSVLine (line : String) : List String :=
  splitCSVLineAux line.data false [] []

/-- Collapse every whitespace run into a single underscore
(`.replace(/\s+/g, "_")`). -/
def collapseWsUnderscore : Bool → List Char → List Char
  | _, [] => []
  | prevWs, c :: rest =>
    if isJsSpace c then
      if prevWs then collapseWsUnderscore true rest
      else '_' :: collapseWsUnderscore true rest
    else c :: collapseWsUnderscore false rest

/-- `normalizeHeader` (second version): trim, lower-case, whitespace runs to
`_`, strip every character outside `[A-Za-z0-9_]`. -/
def normalizeHeader (h : String) : String :=
  let l := (jsTrim h).data.map jsCharLower
  let l := collapseWsUnderscore false l
  ⟨l.filter (fun c => c.isAlphanum || c = '_')⟩

/-- `row[h] = v` on a JS object: overwrite an existing key in place,
otherwise append the key in insertion order. -/
def objSet (row : Row) (k v : String) : Row :=
  if row.any (fun p => p.1 = k) then
    row.map (fun p => if p.1 = k then (k, v) else p)
  else row ++ [(k, v)]

/-- The row-object construction of `parseCSV` (second version):
`headers.forEach((h, i) => row[h] = (cols[i] ?? "").trim())`. -/
def mkRow (headers cols : List String) : Row :=
  headers.enum.foldl
    (fun row iv => objSet row iv.2 (jsTrim (cols.getD iv.1 "")))
    []

/-- The line splitting of `parseCSV` (second version): strip `\r`, split on
`\n`, drop empty lines. -/
def csvLines (text : String) : List String :=
  ((⟨text.data.filter (fun c => c ≠ '\r')⟩ : String).splitOn "\n").filter
    (fun l => l ≠ "")

/-- The normalized header names of the first line. -/
def csvHeaders (text : String) : List String :=
  match csvLines text with
  | [] => []
  | header :: _ => (splitCSVLine header).map normalizeHeader

/-- `parseCSV` (second version): requires a header line plus at least one
data line; every data line becomes a row object over the normalized
headers. -/
def parseCSV (text : String) : List Row :=
  match csvLines text with
  | [] => []
  | [_] => []
  | _ :: dataLines =>
    dataLines.map (fun line => mkRow (csvHeaders text) (splitCSVLine line))

/-- `toNum` (second version): `Number(String(v).replace(",", "."))`, keeping
only finite results.  There is no empty-string guard: `Number("")` is `0`. -/
def toNumV2 (s : String) : Option ℚ :=
  jsNumber (replaceFirstComma s)

/-- `toNum` (second version) on a possibly-`undefined` field:
`String(undefined)` is `"undefined"`, which `Number` maps to `NaN`. -/
def toNumV2opt : Option String → Option ℚ
  | none => none
  | some s => toNumV2 s

/-- The `norm` helper (second version): `String(v ?? "").trim()`. -/
def normV2 (v : Option String) : String := jsTrim (v.getD "")

/-- JS `a || b` on string-or-`undefined` operands: the empty string is
falsy. -/
def jsOrStr (a b : Option String) : Option String :=
  match a with
  | some s => if s = "" then b else some s
  | none => b

/-- `parseLatLonFromLocation` (second version): split on commas and take the
first two parts in order — no range test and no swap correction. -/
def parseLatLonFromLocation (location : Option String) : Option ℚ × Option ℚ :=
  let raw := normV2 location
  if raw = "" then (none, none)
  else
    let parts := (raw.splitOn ",").map jsTrim
    if parts.length < 2 then (none, none)
    else (toNumV2 (parts.getD 0 ""), toNumV2 (parts.getD 1 ""))

/-- The location-ish column chain of `pickLat`/`pickLon` (second version). -/
def locFieldV2 (r : Row) : Option String :=
  jsOrStr (rowGet r "location")
    (jsOrStr (rowGet r "coordinates")
      (jsOrStr (rowGet r "coordinates_lat_long") (rowGet r "coordinates_lat_long_")))

/-- `pickLat` (second version): explicit columns, then the parsed location
string.  No `(0, 0)` sentinel exists on this path. -/
def pickLat (r : Row) : Option ℚ :=
  ((((toNumV2opt (rowGet r "lat")).orElse
    (fun _ => toNumV2opt (rowGet r "latitude"))).orElse
    (fun _ => toNumV2opt (rowGet r "Latitude"))).orElse
    (fun _ => toNumV2opt (rowGet r "y"))).orElse
    (fun _ => (parseLatLonFromLocation (locFieldV2 r)).1)

/-- `pickLon` (second version). -/
def pickLon (r : Row) : Option ℚ :=
  (((((toNumV2opt (rowGet r "lon")).orElse
    (fun _ => toNumV2opt (rowGet r "lng"))).orElse
    (fun _ => toNumV2opt (rowGet r "longitude"))).orElse
    (fun _ => toNumV2opt (rowGet r "Longitude"))).orElse
    (fun _ => toNumV2opt (rowGet r "x"))).orElse
    (fun _ => (parseLatLonFromLocation (locFieldV2 r)).2)

/-- The spatial-retention filter of `useLocationGroup` (second version):
`.filter((r) => r.__lat != null && r.__lon != null)`. -/
def keepRowV2 (r : Row) : Bool :=
  (pickLat r).isSome && (pickLon r).isSome

/-- `parseCountryProvinceFromRegion` (second version). -/
def parseCountryProvinceFromRegion (region : Option String) : String × String :=
  let raw := normV2 region
  if raw = "" then ("", "")
  else
    let parts := (((raw.splitOn ",").map jsTrim).filter (fun s => s ≠ ""))
    match parts with
    | [] => ("", "")
    | [p] => ("", p)
    | ps => (ps.getLast!, String.intercalate ", " (ps.dropLast))

/-- `pickCountry` (second version). -/
def pickCountry (r : Row) : String :=
  let direct := normV2 (jsOrStr (rowGet r "country")
    (jsOrStr (rowGet r "country_code")
      (jsOrStr (rowGet r "cntr")
        (jsOrStr (rowGet r "cntr_code") (rowGet r "cntr_code_")))))
  if direct ≠ "" then direct
  else (parseCountryProvinceFromRegion
    (jsOrStr (rowGet r "p2green_region") (rowGet r "p2greenregion"))).1

/-- `pickProvince` (second version). -/
def pickProvince (r : Row) : String :=
  let direct := normV2 (jsOrStr (rowGet r "province")
    (jsOrStr (rowGet r "nuts_name")
      (jsOrStr (rowGet r "nuts2")
        (jsOrStr (rowGet r "region") (rowGet r "state")))))
  if direct ≠ "" then direct
  else (parseCountryProvinceFromRegion
    (jsOrStr (rowGet r "p2green_region") (rowGet r "p2greenregion"))).2

/-- `ALLOWED_COUNTRY_CODES` (second version). -/
def allowedCountryCodes : List String := ["FR", "IT", "HU", "GR"]

/-- `ALLOWED_COUNTRY_NAMES` (second version). -/
def allowedCountryNames : List String := ["france", "italy", "hungary", "greece"]

/-- `CODE_TO_NAME` (second version). -/
def codeToName : List (String × String) :=
  [("FR", "France"), ("IT", "Italy"), ("HU", "Hungary"), ("GR", "Greece")]

/-- `NAME_TO_CODE` (second version). -/
def nameToCode : List (String × String) :=
  [("france", "FR"), ("italy", "IT"), ("hungary", "HU"), ("greece", "GR")]

/-- `normalizeCountryToCode` (second version). -/
def normalizeCountryToCode (value : String) : String :=
  let s := jsTrim value
  if s = "" then ""
  else if s.length = 2 then jsToUpper s
  else (lookupTable nameToCode (jsToLower s)).getD ""

/-- `displayCountry` (second version). -/
def displayCountry (value : String) : String :=
  let s := jsTrim value
  if s = "" then ""
  else if s.length = 2 then (lookupTable codeToName (jsToUpper s)).getD s
  else s

/-- `isAllowedCountry` (second version). -/
def isAllowedCountry (value : String) : Bool :=
  let s := jsTrim value
  if s = "" then false
  else if s.length = 2 then allowedCountryCodes.contains (jsToUpper s)
  else allowedCountryNames.contains (jsToLower s)

/-- `countryMatches` (second version): compare by two-letter code when both
sides resolve to one, otherwise case-insensitively by name. -/
def countryMatches (rowCountry selectedCountry : String) : Bool :=
  let row := jsTrim rowCountry
  let sel := jsTrim selectedCountry
  if sel = "" then true
  else
    let rowCode :=
      let c := normalizeCountryToCode row
      if c ≠ "" then c else if row.length = 2 then jsToUpper row else ""
    let selCode :=
      let c := normalizeCountryToCode sel
      if c ≠ "" then c else if sel.length = 2 then jsToUpper sel else ""
    if rowCode ≠ "" ∧ selCode ≠ "" then rowCode = selCode
    else jsToLower row = jsToLower sel

/-- `provinceMatches` (second version): lower-cased trimmed equality; an
empty selection matches everything. -/
def provinceMatches (rowProvince selectedProvince : String) : Bool :=
  let a := jsToLower (jsTrim rowProvince)
  let b := jsToLower (jsTrim selectedProvince)
  if b = "" then true else a = b

/-- The row-selection pipeline of `useLocationGroup` (second version). -/
def rowIncludedV2 (r : Row) (country province : String) : Bool :=
  countryMatches (pickCountry r) country && provinceMatches (pickProvince r) province

/-- The accumulation loop of `useCountryProvinceIndex` (second version):
this version reads a single CSV; display names key the index. -/
def buildIndexV2 (rows : List Row) : List (String × List String) :=
  rows.foldl
    (fun idx r =>
      let cRaw := pickCountry r
      let p := pickProvince r
      if cRaw = "" then idx
      else if p = "" then idx
      else if ¬ isAllowedCountry cRaw then idx
      else indexAdd idx (displayCountry cRaw) p)
    []

/- ================= LandUseMap.jsx ================= -/

/-- `OVERPASS_ENDPOINTS`. -/
def overpassEndpoints : List String :=
  ["https://overpass.kumi.systems/api/interpreter",
   "https://overpass-api.de/api/interpreter",
   "https://z.overpass-api.de/api/interpreter"]

/-- `maxAttempts` of `fetchOverpassWithBackoff`. -/
def overpassMaxAttempts : Nat := 4

/-- The retry loop of `fetchOverpassWithBackoff`.  `faults n` is the outcome
of attempt `n`: `none` for a transport error or non-2xx response (both raise
and land in the `catch`), `some v` for a parsed successful response.  The
function returns the terminal outcome together with the list of endpoints
contacted, in order.  The exponential-backoff sleep
(`min(1500·2^attempt, 9000) + jitter`) only delays attempts and the
abort-signal rethrow only serves caller cancellation; neither changes which
endpoints are visited or which outcome is returned for a given fault
sequence, and they are not modelled. -/
def fetchLoop {α : Type} (faults : Nat → Option α) :
    Nat → Nat → Nat → List String → Except String α × List String
  | 0, _, _, visited =>
    (Except.error "Overpass failed after multiple retries", visited)
  | fuel + 1, attempt, endpointIdx, visited =>
    let endpoint := overpassEndpoints.getD (endpointIdx % overpassEndpoints.length) ""
    match faults attempt with
    | some v => (Except.ok v, visited ++ [endpoint])
    | none => fetchLoop faults fuel (attempt + 1) (endpointIdx + 1) (visited ++ [endpoint])

/-- `fetchOverpassWithBackoff`: a cache hit short-circuits the loop;
otherwise up to `maxAttempts` attempts starting at endpoint index 0. -/
def fetchOverpassWithBackoff {α : Type} (cached : Option α)
    (faults : Nat → Option α) : Except String α × List String :=
  match cached with
  | some v => (Except.ok v, [])
  | none => fetchLoop faults overpassMaxAttempts 0 0 []

/-- A supply point as consumed by `buildCircleBBoxes`
(after `asNum`: `none` models a missing or non-finite coordinate). -/
structure PointLL where
  lat : Option ℚ
  lon : Option ℚ

/-- One per-circle bounding box produced by `buildCircleBBoxes`. -/
structure Box where
  lat : ℚ
  lon : ℚ
  minLat : ℚ
  maxLat : ℚ
  minLon : ℚ
  maxLon : ℚ

/-- `buildCircleBBoxes`: a non-finite (`none`) or non-positive radius yields
no boxes; otherwise one box per point with both coordinates present, with
latitude padding `km / 111` and longitude padding `km / (111·cos)` where a
zero cosine is replaced by 1.  `cosDeg lat` stands for the numeric value of
`Math.cos(lat · π / 180)`. -/
def buildCircleBBoxes (cosDeg : ℚ → ℚ) (centers : List PointLL)
    (radiusKm : Option ℚ) : List Box :=
  match radiusKm with
  | none => []
  | some km =>
    if km ≤ 0 then []
    else
      centers.filterMap (fun p =>
        match p.lat, p.lon with
        | some lat, some lon =>
          let latPad := km / 111
          let c0 := cosDeg lat
          let c := if c0 = 0 then 1 else c0
          let lonPad := km / (111 * c)
          some { lat := lat, lon := lon,
                 minLat := lat - latPad, maxLat := lat + latPad,
                 minLon := lon - lonPad, maxLon := lon + lonPad }
        | _, _ => none)

/-- `centroidInsideAnyCircle`: reject a non-finite or non-positive radius,
a failed or non-finite centroid, then bounding-box prefilter and
great-circle distance against each circle; `dist` stands for
`turf.distance(..., kilometers)` and `centroid` for the (possibly failing)
`turf.centroid` result. -/
def centroidInsideAnyCircle (dist : ℚ × ℚ → ℚ × ℚ → ℚ)
    (centroid : Option (ℚ × ℚ)) (circleBoxes : List Box)
    (radiusKm : Option ℚ) : Bool :=
  match radiusKm with
  | none => false
  | some km =>
    if km ≤ 0 then false
    else
      match centroid with
      | none => false
      | some (cx, cy) =>
        circleBoxes.any (fun b =>
          if cy < b.minLat ∨ cy > b.maxLat ∨ cx < b.minLon ∨ cx > b.maxLon then false
          else decide (dist (cx, cy) (b.lon, b.lat) ≤ km))

/-- GeoJSON geometry kinds distinguished by the attribution loop. -/
inductive GeomType
  | polygon
  | multiPolygon
  | other
deriving DecidableEq

/-- A fetched feature as consumed by the attribution loop of the
`LandUseMap` effect.  `centroid` and `areaM2` carry the values the turf
library computes for its geometry (`none`: the centroid computation threw
or produced non-finite coordinates, resp. the area is non-finite). -/
structure Feature where
  landuse : Option String
  geom : Option GeomType
  centroid : Option (ℚ × ℚ)
  areaM2 : Option ℚ
deriving DecidableEq

/-- The retention filter of the attribution loop: enabled land-use tag,
polygonal geometry, centroid inside some circle, finite positive area.
Returns each kept feature with its area. -/
def keepFeature (toggles : String → Bool) (dist : ℚ × ℚ → ℚ × ℚ → ℚ)
    (circleBoxes : List Box) (radiusKm : Option ℚ)
    (f : Feature) : Option (Feature × ℚ) :=
  match f.landuse with
  | none => none
  | some lu =>
    if lu = "" then none
    else if !toggles lu then none
    else
      match f.geom with
      | none => none
      | some g =>
        if g ≠ GeomType.polygon ∧ g ≠ GeomType.multiPolygon then none
        else if !centroidInsideAnyCircle dist f.centroid circleBoxes radiusKm then none
        else
          match f.areaM2 with
          | none => none
          | some a => if a ≤ 0 then none else some (f, a)

def keptParcels (toggles : String → Bool) (dist : ℚ × ℚ → ℚ × ℚ → ℚ)
    (circleBoxes : List Box) (radiusKm : Option ℚ)
    (feats : List Feature) : List (Feature × ℚ) :=
  feats.filterMap (keepFeature toggles dist circleBoxes radiusKm)

/-- `totalA`: the running area total accumulated over the kept parcels. -/
def totalRetainedArea (kept : List (Feature × ℚ)) : ℚ :=
  (kept.map Prod.snd).sum

/-- The attribution pass:
`p.properties.fertilizer = totalA > 0 ? (p.properties.area / totalA) * prod : 0`. -/
def fertilizerShares (kept : List (Feature × ℚ)) (prod : ℚ) : List ℚ :=
  let totalA := totalRetainedArea kept
  kept.map (fun fa => if 0 < totalA then fa.2 / totalA * prod else 0)

/- ================= Helper lemmas ================= -/

theorem dropWhile_idem {α : Type} (p : α → Bool) (l : List α) :
    (l.dropWhile p).dropWhile p = l.dropWhile p := by
  induction l with
  | nil => rfl
  | cons c cs ih =>
    by_cases h : p c
    · simp [List.dropWhile_cons, h, ih]
    · simp [List.dropWhile_cons, h]

theorem dropWhile_eq_self_of_head {α : Type} (p : α → Bool) (l : List α)
    (h : ∀ x, l.head? = some x → p x = false) : l.dropWhile p = l := by
  cases l with
  | nil => rfl
  | cons c cs => simp [List.dropWhile_cons, h c rfl]

theorem jsTrimChars_head (l : List Char) :
    ∀ x, (jsTrimChars l).head? = some x → isJsSpace x = false := by
  intro x hx
  unfold jsTrimChars at hx
  rw [List.head?_reverse] at hx
  obtain ⟨t, ht⟩ := (List.dropWhile_suffix isJsSpace :
    ((l.dropWhile isJsSpace).reverse).dropWhile isJsSpace
      <:+ (l.dropWhile isJsSpace).reverse)
  have hm : ((l.dropWhile isJsSpace).reverse).getLast? = some x := by
    rw [← ht, List.getLast?_append, hx]
    rfl
  rw [List.getLast?_reverse] at hm
  have hh := List.head?_dropWhile_not isJsSpace l
  rw [hm] at hh
  exact hh

theorem jsTrimChars_idem (l : List Char) :
    jsTrimChars (jsTrimChars l) = jsTrimChars l := by
  have h1 : (jsTrimChars l).dropWhile isJsSpace = jsTrimChars l :=
    dropWhile_eq_self_of_head _ _ (jsTrimChars_head l)
  show ((((jsTrimChars l).dropWhile isJsSpace).reverse).dropWhile isJsSpace).reverse
      = jsTrimChars l
  rw [h1]
  have h2 : (jsTrimChars l).reverse.dropWhile isJsSpace = (jsTrimChars l).reverse := by
    unfold jsTrimChars
    simp only [List.reverse_reverse]
    exact dropWhile_idem _ _
  rw [h2, List.reverse_reverse]

theorem jsTrim_idem (s : String) : jsTrim (jsTrim s) = jsTrim s := by
  obtain ⟨l⟩ := s
  show String.mk (jsTrimChars (jsTrimChars l)) = String.mk (jsTrimChars l)
  rw [jsTrimChars_idem]

theorem lowerPairs_snd_fixed : ∀ pr ∈ lowerPairs,
    lowerPairs.find? (fun p => p.1 = pr.2) = none
    ∧ isJsSpace pr.2 = false ∧ isJsSpace pr.1 = false := by decide

theorem jsCharLower_idem (c : Char) : jsCharLower (jsCharLower c) = jsCharLower c := by
  cases hf : lowerPairs.find? (fun p => p.1 = c) with
  | none => simp [jsCharLower, hf]
  | some pr =>
    have hmem := List.mem_of_find?_eq_some hf
    simp [jsCharLower, hf, (lowerPairs_snd_fixed pr hmem).1]

theorem isJsSpace_jsCharLower (c : Char) : isJsSpace (jsCharLower c) = isJsSpace c := by
  cases hf : lowerPairs.find? (fun p => p.1 = c) with
  | none => simp [jsCharLower, hf]
  | some pr =>
    have hmem := List.mem_of_find?_eq_some hf
    have hc : pr.1 = c := by
      have := List.find?_some hf
      simpa using this
    subst hc
    simp [jsCharLower, hf, (lowerPairs_snd_fixed pr hmem).2.1,
      (lowerPairs_snd_fixed pr hmem).2.2]

theorem jsToLower_idem (s : String) : jsToLower (jsToLower s) = jsToLower s := by
  obtain ⟨l⟩ := s
  show String.mk ((l.map jsCharLower).map jsCharLower) = String.mk (l.map jsCharLower)
  rw [List.map_map]
  exact congrArg String.mk (List.map_congr_left (fun c _ => jsCharLower_idem c))

theorem jsTrim_jsToLower (s : String) : jsTrim (jsToLower s) = jsToLower (jsTrim s) := by
  obtain ⟨l⟩ := s
  show String.mk (jsTrimChars (l.map jsCharLower))
      = String.mk ((jsTrimChars l).map jsCharLower)
  unfold jsTrimChars
  have hp : (isJsSpace ∘ jsCharLower) = isJsSpace := funext isJsSpace_jsCharLower
  rw [List.dropWhile_map, hp, ← List.map_reverse, List.dropWhile_map, hp,
    ← List.map_reverse]

theorem countryMap_values (k v : String)
    (h : lookupTable countryMap k = some v) :
    v = "France" ∨ v = "Italy" ∨ v = "Hungary" ∨ v = "Greece" := by
  unfold lookupTable at h
  cases hf : countryMap.find? (fun p => p.1 = k) with
  | none => rw [hf] at h; simp at h
  | some pr =>
    rw [hf] at h
    simp only [Option.map_some'] at h
    have hm := List.mem_of_find?_eq_some hf
    have hv : pr.2 = v := Option.some.inj h
    rw [← hv]
    fin_cases hm <;> simp

theorem normalizeCountry_fixedpoint (c : String)
    (h : c = "France" ∨ c = "Italy" ∨ c = "Hungary" ∨ c = "Greece") :
    normalizeCountry c = c := by
  rcases h with rfl | rfl | rfl | rfl <;> decide

theorem normalizeCountry_cases (x : String) :
    (jsTrim x = "" ∧ normalizeCountry x = "")
    ∨ (∃ c, lookupTable countryMap (jsToUpper (jsTrim x)) = some c
        ∧ normalizeCountry x = c)
    ∨ (∃ c, lookupTable countryMap (jsToUpper (jsTrim x)) = none
        ∧ lookupTable countryMap (jsTrim x) = some c ∧ normalizeCountry x = c)
    ∨ (lookupTable countryMap (jsToUpper (jsTrim x)) = none
        ∧ lookupTable countryMap (jsTrim x) = none
        ∧ jsTrim x ≠ "" ∧ normalizeCountry x = jsTrim x) := by
  by_cases h0 : jsTrim x = ""
  · exact Or.inl ⟨h0, by simp only [normalizeCountry, h0, if_pos]⟩
  · cases hup : lookupTable countryMap (jsToUpper (jsTrim x)) with
    | some c =>
      refine Or.inr (Or.inl ⟨c, rfl, ?_⟩)
      simp only [normalizeCountry, if_neg h0, hup]
    | none =>
      cases hdir : lookupTable countryMap (jsTrim x) with
      | some c =>
        refine Or.inr (Or.inr (Or.inl ⟨c, rfl, rfl, ?_⟩))
        simp only [normalizeCountry, if_neg h0, hup, hdir]
      | none =>
        refine Or.inr (Or.inr (Or.inr ⟨rfl, rfl, h0, ?_⟩))
        simp only [normalizeCountry, if_neg h0, hup, hdir]

/-- **C9**: `normalizeCountry` is idempotent: for every input `x`,
`normalizeCountry(normalizeCountry(x))` equals `normalizeCountry(x)`
(`useLocationsData.js`, first version, lines 26–32). -/
theorem C9_normalizeCountry_idempotent (x : String) :
    normalizeCountry (normalizeCountry x) = normalizeCountry x := by
  rcases normalizeCountry_cases x with ⟨h0, h1⟩ | ⟨c, hup, h1⟩
    | ⟨c, hup, hdir, h1⟩ | ⟨hup, hdir, h0, h1⟩
  · rw [h1]; decide
  · rw [h1]; exact normalizeCountry_fixedpoint c (countryMap_values _ _ hup)
  · rw [h1]; exact normalizeCountry_fixedpoint c (countryMap_values _ _ hdir)
  · rw [h1]
    simp only [normalizeCountry, jsTrim_idem, if_neg h0, hup, hdir]

/-- **C6**: for every fault sequence whose first 3 attempts fail with a
transport or non-2xx error while attempt 4 succeeds,
`fetchOverpassWithBackoff` returns the attempt-4 result, and across those 4
attempts the endpoint rotation visits each of the 3 configured Overpass
endpoints at least once; when all attempts up to the fixed ceiling of 4
fail, the call surfaces a terminal error rather than hanging
(`LandUseMap.jsx`, lines 83–113). -/
theorem C6_retry_rotation {α : Type} (faults : Nat → Option α) (v : α)
    (h0 : faults 0 = none) (h1 : faults 1 = none) (h2 : faults 2 = none)
    (h3 : faults 3 = some v) :
    (fetchOverpassWithBackoff none faults).1 = Except.ok v
    ∧ (∀ e ∈ overpassEndpoints, e ∈ (fetchOverpassWithBackoff none faults).2)
    ∧ (∀ faultsAll : Nat → Option α,
        (∀ i, i < overpassMaxAttempts → faultsAll i = none) →
        (fetchOverpassWithBackoff none faultsAll).1
          = Except.error "Overpass failed after multiple retries") := by
  refine ⟨?_, ?_, ?_⟩
  · simp [fetchOverpassWithBackoff, overpassMaxAttempts, fetchLoop, h0, h1, h2, h3]
  · intro e he
    simp only [fetchOverpassWithBackoff, overpassMaxAttempts, fetchLoop,
      h0, h1, h2, h3]
    fin_cases he <;> simp [overpassEndpoints]
  · intro g hg
    simp [fetchOverpassWithBackoff, overpassMaxAttempts, fetchLoop,
      hg 0 (by norm_num [overpassMaxAttempts]),
      hg 1 (by norm_num [overpassMaxAttempts]),
      hg 2 (by norm_num [overpassMaxAttempts]),
      hg 3 (by norm_num [overpassMaxAttempts])]

/-- Concrete fault sequence for the retry scenario: three failures, then a
success on attempt 4. -/
def retryScenarioFaults : Nat → Option Nat := fun i => if i = 3 then some 42 else none

/-- Witness for `C6_retry_rotation` at a concrete fault sequence. -/
theorem C6_retry_rotation_witness :
    (fetchOverpassWithBackoff none retryScenarioFaults).1 = Except.ok 42
    ∧ (∀ e ∈ overpassEndpoints,
        e ∈ (fetchOverpassWithBackoff none retryScenarioFaults).2)
    ∧ (fetchOverpassWithBackoff none (fun _ => (none : Option Nat))).1
        = Except.error "Overpass failed after multiple retries" := by
  have h := C6_retry_rotation retryScenarioFaults 42 rfl rfl rfl rfl
  exact ⟨h.1, h.2.1, h.2.2 (fun _ => none) (fun i _ => rfl)⟩

theorem buildCircleBBoxes_degenerate (cosDeg : ℚ → ℚ) (centers : List PointLL)
    (radiusKm : Option ℚ)
    (h : centers = [] ∨ radiusKm = none ∨ ∃ km, radiusKm = some km ∧ km ≤ 0) :
    buildCircleBBoxes cosDeg centers radiusKm = [] := by
  rcases h with rfl | rfl | ⟨km, rfl, hk⟩
  · cases radiusKm with
    | none => rfl
    | some km => simp [buildCircleBBoxes]
  · rfl
  · simp [buildCircleBBoxes, hk]

theorem centroidInsideAnyCircle_nil (dist : ℚ × ℚ → ℚ × ℚ → ℚ)
    (cen : Option (ℚ × ℚ)) (radiusKm : Option ℚ) :
    centroidInsideAnyCircle dist cen [] radiusKm = false := by
  unfold centroidInsideAnyCircle
  cases radiusKm with
  | none => rfl
  | some km =>
    by_cases h : km ≤ 0
    · simp [h]
    · cases cen with
      | none => simp [h]
      | some c => simp [h]

theorem keepFeature_none_of_outside (toggles : String → Bool)
    (dist : ℚ × ℚ → ℚ × ℚ → ℚ) (circleBoxes : List Box) (radiusKm : Option ℚ)
    (f : Feature)
    (h : centroidInsideAnyCircle dist f.centroid circleBoxes radiusKm = false) :
    keepFeature toggles dist circleBoxes radiusKm f = none := by
  unfold keepFeature
  cases hlu : f.landuse with
  | none => rfl
  | some lu =>
    cases hg : f.geom with
    | none => simp
    | some g => simp [h]

/-- **C7**: degenerate catchments are empty: for every point set and every
radius, if the point set is empty or the radius is non-positive or
non-finite, `buildCircleBBoxes` yields no geometry,
`centroidInsideAnyCircle` returns false for every candidate centroid, and
consequently the attribution loop retains zero parcels with a total
retained area of zero (`LandUseMap.jsx`, lines 199–247 and 354–380). -/
theorem C7_degenerate_catchment (cosDeg : ℚ → ℚ) (dist : ℚ × ℚ → ℚ × ℚ → ℚ)
    (toggles : String → Bool) (centers : List PointLL) (radiusKm : Option ℚ)
    (feats : List Feature)
    (h : centers = [] ∨ radiusKm = none ∨ ∃ km, radiusKm = some km ∧ km ≤ 0) :
    buildCircleBBoxes cosDeg centers radiusKm = []
    ∧ (∀ cen, centroidInsideAnyCircle dist cen
        (buildCircleBBoxes cosDeg centers radiusKm) radiusKm = false)
    ∧ keptParcels toggles dist (buildCircleBBoxes cosDeg centers radiusKm)
        radiusKm feats = []
    ∧ totalRetainedArea (keptParcels toggles dist
        (buildCircleBBoxes cosDeg centers radiusKm) radiusKm feats) = 0 := by
  have hb := buildCircleBBoxes_degenerate cosDeg centers radiusKm h
  have hc : ∀ cen, centroidInsideAnyCircle dist cen
      (buildCircleBBoxes cosDeg centers radiusKm) radiusKm = false := by
    intro cen
    rw [hb]
    exact centroidInsideAnyCircle_nil dist cen radiusKm
  have hk : keptParcels toggles dist (buildCircleBBoxes cosDeg centers radiusKm)
      radiusKm feats = [] := by
    unfold keptParcels
    exact List.filterMap_eq_nil_iff.mpr
      (fun f _ => keepFeature_none_of_outside toggles dist _ radiusKm f (hc f.centroid))
  exact ⟨hb, hc, hk, by rw [hk]; rfl⟩

/-- Witness for `C7_degenerate_catchment` at a zero radius with one supply
point and one candidate feature. -/
theorem C7_degenerate_catchment_witness :
    buildCircleBBoxes (fun _ => 1) [⟨some 1, some 2⟩] (some 0) = []
    ∧ keptParcels (fun _ => true) (fun _ _ => 0)
        (buildCircleBBoxes (fun _ => 1) [⟨some 1, some 2⟩] (some 0)) (some 0)
        [⟨some "farmland", some GeomType.polygon, some (1, 2), some 5⟩] = []
    ∧ totalRetainedArea (keptParcels (fun _ => true) (fun _ _ => 0)
        (buildCircleBBoxes (fun _ => 1) [⟨some 1, some 2⟩] (some 0)) (some 0)
        [⟨some "farmland", some GeomType.polygon, some (1, 2), some 5⟩]) = 0 := by
  have h := C7_degenerate_catchment (fun _ => 1) (fun _ _ => 0) (fun _ => true)
    [⟨some 1, some 2⟩] (some 0)
    [⟨some "farmland", some GeomType.polygon, some (1, 2), some 5⟩]
    (Or.inr (Or.inr ⟨0, rfl, le_refl 0⟩))
  exact ⟨h.1, h.2.2.1, h.2.2.2⟩

theorem keepFeature_pos (toggles : String → Bool) (dist : ℚ × ℚ → ℚ × ℚ → ℚ)
    (circleBoxes : List Box) (radiusKm : Option ℚ) (f : Feature)
    (fa : Feature × ℚ)
    (h : keepFeature toggles dist circleBoxes radiusKm f = some fa) :
    0 < fa.2 := by
  unfold keepFeature at h
  repeat' split at h
  all_goals try simp_all [not_le]
  all_goals rw [← h]
  all_goals simp_all [not_le]

theorem keptParcels_pos (toggles : String → Bool) (dist : ℚ × ℚ → ℚ × ℚ → ℚ)
    (circleBoxes : List Box) (radiusKm : Option ℚ) (feats : List Feature) :
    ∀ fa ∈ keptParcels toggles dist circleBoxes radiusKm feats, 0 < fa.2 := by
  intro fa hfa
  unfold keptParcels at hfa
  rw [List.mem_filterMap] at hfa
  obtain ⟨f, _, hf⟩ := hfa
  exact keepFeature_pos toggles dist circleBoxes radiusKm f fa hf

theorem totalRetainedArea_pos (toggles : String → Bool)
    (dist : ℚ × ℚ → ℚ × ℚ → ℚ) (circleBoxes : List Box) (radiusKm : Option ℚ)
    (feats : List Feature)
    (hne : keptParcels toggles dist circleBoxes radiusKm feats ≠ []) :
    0 < totalRetainedArea (keptParcels toggles dist circleBoxes radiusKm feats) := by
  unfold totalRetainedArea
  apply List.sum_pos
  · intro x hx
    rw [List.mem_map] at hx
    obtain ⟨fa, hfa, rfl⟩ := hx
    exact keptParcels_pos toggles dist circleBoxes radiusKm feats fa hfa
  · simpa using hne

/-- **C1**: attribution is proportional to area: every retained parcel is
assigned the share `totalQuantity × (parcelArea / sumOfRetainedAreas)`; when
at least one parcel is retained (each retained parcel has positive area) the
shares sum to exactly `totalQuantity`, and when the total retained area is 0
every share is 0 with no division by zero
(`LandUseMap.jsx`, attribution loop, lines 354–380). -/
theorem C1_proportional_attribution (toggles : String → Bool)
    (dist : ℚ × ℚ → ℚ × ℚ → ℚ) (circleBoxes : List Box) (radiusKm : Option ℚ)
    (feats : List Feature) (prod : ℚ) :
    fertilizerShares (keptParcels toggles dist circleBoxes radiusKm feats) prod
      = (keptParcels toggles dist circleBoxes radiusKm feats).map
          (fun fa =>
            if 0 < totalRetainedArea (keptParcels toggles dist circleBoxes radiusKm feats)
            then prod * (fa.2
              / totalRetainedArea (keptParcels toggles dist circleBoxes radiusKm feats))
            else 0)
    ∧ (keptParcels toggles dist circleBoxes radiusKm feats ≠ [] →
        (fertilizerShares (keptParcels toggles dist circleBoxes radiusKm feats)
          prod).sum = prod)
    ∧ (totalRetainedArea (keptParcels toggles dist circleBoxes radiusKm feats) = 0 →
        ∀ s ∈ fertilizerShares (keptParcels toggles dist circleBoxes radiusKm feats)
          prod, s = 0) := by
  refine ⟨?_, ?_, ?_⟩
  · unfold fertilizerShares
    apply List.map_congr_left
    intro fa _
    by_cases h : 0 < totalRetainedArea (keptParcels toggles dist circleBoxes radiusKm feats)
    · simp [h, mul_comm]
    · simp [h]
  · intro hne
    have hT := totalRetainedArea_pos toggles dist circleBoxes radiusKm feats hne
    unfold fertilizerShares
    simp only [if_pos hT]
    have hcong : (keptParcels toggles dist circleBoxes radiusKm feats).map
        (fun fa => fa.2
          / totalRetainedArea (keptParcels toggles dist circleBoxes radiusKm feats) * prod)
        = (keptParcels toggles dist circleBoxes radiusKm feats).map
          (fun fa => fa.2
            * (prod / totalRetainedArea (keptParcels toggles dist circleBoxes radiusKm feats))) := by
      apply List.map_congr_left
      intro fa _
      rw [div_mul_eq_mul_div, mul_div_assoc]
    rw [hcong, List.sum_map_mul_right]
    show totalRetainedArea (keptParcels toggles dist circleBoxes radiusKm feats)
        * (prod / totalRetainedArea (keptParcels toggles dist circleBoxes radiusKm feats))
      = prod
    rw [mul_comm]
    exact div_mul_cancel₀ prod hT.ne'
  · intro hT0 s hs
    unfold fertilizerShares at hs
    rw [List.mem_map] at hs
    obtain ⟨fa, _, rfl⟩ := hs
    simp [hT0]

/-- The two parcels of the concrete attribution scenario. -/
def parcel300 : Feature := ⟨some "farmland", some GeomType.polygon, some (0, 0), some 300⟩

def parcel700 : Feature := ⟨some "farmland", some GeomType.polygon, some (0, 0), some 700⟩

def unitBox : Box := ⟨0, 0, -1, 1, -1, 1⟩

/-- Witness for `C1_proportional_attribution`: two retained parcels of
areas 300 m² and 700 m² with `totalQuantity = 1000` receive shares 300 and
700, summing to 1000. -/
theorem C1_proportional_attribution_witness :
    fertilizerShares (keptParcels (fun _ => true) (fun _ _ => 0) [unitBox] (some 1)
      [parcel300, parcel700]) 1000 = [300, 700]
    ∧ (fertilizerShares (keptParcels (fun _ => true) (fun _ _ => 0) [unitBox] (some 1)
        [parcel300, parcel700]) 1000).sum = 1000 := by
  have h := C1_proportional_attribution (fun _ => true) (fun _ _ => 0) [unitBox]
    (some 1) [parcel300, parcel700] 1000
  have hkept : keptParcels (fun _ => true) (fun _ _ => 0) [unitBox] (some 1)
      [parcel300, parcel700] = [(parcel300, 300), (parcel700, 700)] := by
    simp [keptParcels, keepFeature, centroidInsideAnyCircle, parcel300, parcel700,
      unitBox]
  refine ⟨?_, h.2.1 (by rw [hkept]; simp)⟩
  rw [hkept]
  simp [fertilizerShares, totalRetainedArea]
  norm_num

theorem indexHas_indexAdd_self (idx : List (String × List String)) (c p : String) :
    indexHas (indexAdd idx c p) c p = true := by
  unfold indexAdd indexHas
  by_cases h : idx.any (fun e => e.1 = c)
  · rw [if_pos h]
    rw [List.any_eq_true] at h ⊢
    obtain ⟨e, he, hec⟩ := h
    have hec' : e.1 = c := by simpa using hec
    refine ⟨(c, if p ∈ e.2 then e.2 else e.2 ++ [p]), ?_, ?_⟩
    · rw [List.mem_map]
      exact ⟨e, he, by rw [if_pos hec']⟩
    · by_cases hp : p ∈ e.2 <;> simp [hp]
  · rw [if_neg h]
    rw [List.any_eq_true]
    exact ⟨(c, [p]), by simp, by simp⟩

theorem indexHas_indexAdd_mono (idx : List (String × List String))
    (c p c' p' : String) (h : indexHas idx c' p' = true) :
    indexHas (indexAdd idx c p) c' p' = true := by
  unfold indexHas at h ⊢
  unfold indexAdd
  rw [List.any_eq_true] at h
  obtain ⟨e, he, hcp⟩ := h
  have h1 : e.1 = c' ∧ p' ∈ e.2 := by simpa using hcp
  by_cases hany : idx.any (fun e => e.1 = c)
  · rw [if_pos hany, List.any_eq_true]
    by_cases hec : e.1 = c
    · refine ⟨(c, if p ∈ e.2 then e.2 else e.2 ++ [p]),
        List.mem_map.mpr ⟨e, he, by rw [if_pos hec]⟩, ?_⟩
      have hcc : c = c' := by rw [← hec, h1.1]
      subst hcc
      by_cases hp : p ∈ e.2 <;> simp [hp, h1.2]
    · refine ⟨e, List.mem_map.mpr ⟨e, he, by rw [if_neg hec]⟩, hcp⟩
  · rw [if_neg hany, List.any_eq_true]
    exact ⟨e, List.mem_append_left _ he, hcp⟩

theorem indexHas_indexStep_mono (idx : List (String × List String)) (raw : Row)
    (c' p' : String) (h : indexHas idx c' p' = true) :
    indexHas (indexStep idx raw) c' p' = true := by
  simp only [indexStep]
  repeat' split
  all_goals first
    | exact h
    | exact indexHas_indexAdd_mono _ _ _ _ _ h

theorem indexHas_foldl_mono (rows : List Row) (idx : List (String × List String))
    (c' p' : String) (h : indexHas idx c' p' = true) :
    indexHas (rows.foldl indexStep idx) c' p' = true := by
  induction rows generalizing idx with
  | nil => exact h
  | cons r rs ih =>
    rw [List.foldl_cons]
    exact ih _ (indexHas_indexStep_mono idx r c' p' h)

theorem foldl_indexStep_complete (rows : List Row) (raw : Row)
    (hc : (normalizeRowCountryProvince raw).1 ∈ allowedCountries)
    (hp : (normalizeRowCountryProvince raw).2 ≠ "") :
    ∀ idx, raw ∈ rows →
      indexHas (rows.foldl indexStep idx)
        (normalizeRowCountryProvince raw).1
        (normalizeRowCountryProvince raw).2 = true := by
  induction rows with
  | nil => intro idx h; cases h
  | cons r rs ih =>
    intro idx hmem
    rw [List.foldl_cons]
    rcases List.mem_cons.mp hmem with heq | hmem'
    · subst heq
      apply indexHas_foldl_mono
      have hc1 : (normalizeRowCountryProvince raw).1 ≠ "" := by
        intro he
        rw [he] at hc
        simp [allowedCountries] at hc
      simp only [indexStep]
      rw [if_neg hc1, if_neg (not_not_intro hc), if_neg hp]
      exact indexHas_indexAdd_self idx _ _
    · exact ih _ hmem'

/-- **C3**: Location Index union property: for every collection of loaded
datasets (the WTP rows plus every auxiliary dataset's rows), every row
whose normalized country is allowed and whose normalized province is
nonempty — including a row present only in an auxiliary dataset — has its
province in that country's set of the built index
(`useLocationsData.js`, first version, `useCountryProvinceIndex`,
lines 214–281). -/
theorem C3_location_index_union (wtpRows : List Row)
    (extraRows : List (List Row)) (raw : Row)
    (hmem : raw ∈ wtpRows ∨ ∃ d ∈ extraRows, raw ∈ d)
    (hc : (normalizeRowCountryProvince raw).1 ∈ allowedCountries)
    (hp : (normalizeRowCountryProvince raw).2 ≠ "") :
    indexHas (countryProvinceIndexV1 wtpRows extraRows)
      (normalizeRowCountryProvince raw).1
      (normalizeRowCountryProvince raw).2 = true := by
  unfold countryProvinceIndexV1 buildIndex
  apply foldl_indexStep_complete _ raw hc hp
  rcases hmem with h | ⟨d, hd, hr⟩
  · exact List.mem_append_left _ h
  · exact List.mem_append_right _ (List.mem_flatten.mpr ⟨d, hd, hr⟩)

/-- The WTP row and the auxiliary-dataset row of the index-union witness. -/
def wtpRowFR : Row := [("country", "FR"), ("province", "Île-de-France")]

def extraRowGR : Row := [("country", "EL"), ("province", "Κρήτη")]

/-- Witness for `C3_location_index_union`: a Greek province present only in
an auxiliary dataset appears in the merged index under `Greece`. -/
theorem C3_location_index_union_witness :
    normalizeRowCountryProvince extraRowGR = ("Greece", "Crete")
    ∧ indexHas (countryProvinceIndexV1 [wtpRowFR] [[extraRowGR]])
        (normalizeRowCountryProvince extraRowGR).1
        (normalizeRowCountryProvince extraRowGR).2 = true := by
  refine ⟨by decide, ?_⟩
  apply C3_location_index_union [wtpRowFR] [[extraRowGR]] extraRowGR
  · exact Or.inr ⟨[extraRowGR], by simp, by simp⟩
  · decide
  · decide

theorem rejectNullOrZero_spec (ll : Option ℚ × Option ℚ) :
    rejectNullOrZero ll = (none, none)
    ∨ ∃ la lo, rejectNullOrZero ll = (some la, some lo) ∧ ¬(la = 0 ∧ lo = 0) := by
  obtain ⟨o1, o2⟩ := ll
  cases o1 with
  | none => left; rfl
  | some la =>
    cases o2 with
    | none => left; rfl
    | some lo =>
      by_cases h : la = 0 ∧ lo = 0
      · left; simp [rejectNullOrZero, h]
      · right; exact ⟨la, lo, by simp [rejectNullOrZero, h], h⟩

/-- **C4** (amended): under the first version's `parseLatLon`, for every
input row, coordinates that resolve to exactly `(0, 0)` are treated as
missing under every coordinate-resolution path (explicit columns as well as
the `location`-string fallback), and such a row is excluded; the second
version's `pickLat`/`pickLon` have no `(0, 0)` sentinel, so there a
`(0, 0)` row keeps its coordinates and passes the retention filter
(`useLocationsData.js`, lines 132–167 and 534–561). -/
theorem C4_zero_zero_sentinel :
    (∀ row : Row, parseLatLon row = (none, none)
      ∨ ∃ la lo, parseLatLon row = (some la, some lo) ∧ ¬(la = 0 ∧ lo = 0))
    ∧ parseLatLon [("lat", "0"), ("lon", "0")] = (none, none)
    ∧ parseLatLon [("location", "0, 0")] = (none, none)
    ∧ pickLat [("lat", "0"), ("lon", "0")] = some 0
    ∧ pickLon [("lat", "0"), ("lon", "0")] = some 0
    ∧ keepRowV2 [("lat", "0"), ("lon", "0")] = true := by
  refine ⟨?_, by with_unfolding_all decide, by with_unfolding_all decide,
    by with_unfolding_all decide, by with_unfolding_all decide,
    by with_unfolding_all decide⟩
  intro row
  exact rejectNullOrZero_spec _

/-- **C4** counterexample to the claim as stated: the second version's
coordinate resolution (`pickLat`/`pickLon`, used by `useLocationGroup`)
keeps a row whose columns are exactly `lat = "0"`, `lon = "0"`: the row
passes the `__lat != null && __lon != null` retention filter with
coordinates `(0, 0)`, so it is not excluded from spatial operations. -/
theorem C4_zero_zero_sentinel_counterexample :
    pickLat [("lat", "0"), ("lon", "0")] = some 0
    ∧ pickLon [("lat", "0"), ("lon", "0")] = some 0
    ∧ keepRowV2 [("lat", "0"), ("lon", "0")] = true
    ∧ pickLat [("location", "0, 0")] = some 0
    ∧ pickLon [("location", "0, 0")] = some 0 := by
  refine ⟨by with_unfolding_all decide, by with_unfolding_all decide,
    by with_unfolding_all decide, by with_unfolding_all decide,
    by with_unfolding_all decide⟩

/-- **C5** (amended): the location-string fallback with range validation and
swap correction exists only in the first version's `parseLatLon`: when the
parsed pair is valid in "lat, lon" order it is taken in that order, when
only the swapped "lon, lat" order is valid the pair is flipped, and when
both candidate orders are invalid the coordinates remain unset (so
`"45.5, 200"` yields no coordinates).  The second version's
`parseLatLonFromLocation` returns the two parsed numbers in order with no
range test at all (`useLocationsData.js`, lines 139–161 and 513–519). -/
theorem C5_latlon_swap_correction :
    (∀ (a b : ℚ) (lat0 lon0 : Option ℚ), |a| ≤ 90 ∧ |b| ≤ 180 →
      locFallback a b lat0 lon0 = (some a, some b))
    ∧ (∀ (a b : ℚ) (lat0 lon0 : Option ℚ), ¬(|a| ≤ 90 ∧ |b| ≤ 180) →
        |b| ≤ 90 ∧ |a| ≤ 180 → locFallback a b lat0 lon0 = (some b, some a))
    ∧ (∀ (a b : ℚ) (lat0 lon0 : Option ℚ), ¬(|a| ≤ 90 ∧ |b| ≤ 180) →
        ¬(|b| ≤ 90 ∧ |a| ≤ 180) → locFallback a b lat0 lon0 = (lat0, lon0))
    ∧ parseLatLon [("location", "48.85, 2.35")] = (some (977/20), some (47/20))
    ∧ parseLatLon [("location", "100, 45")] = (some 45, some 100)
    ∧ parseLatLon [("location", "45.5, 200")] = (none, none) := by
  refine ⟨?_, ?_, ?_, by with_unfolding_all decide,
    by with_unfolding_all decide, by with_unfolding_all decide⟩
  · intro a b lat0 lon0 h
    unfold locFallback
    rw [if_pos h]
  · intro a b lat0 lon0 h1 h2
    unfold locFallback
    rw [if_neg h1, if_pos h2]
  · intro a b lat0 lon0 h1 h2
    unfold locFallback
    rw [if_neg h1, if_neg h2]

/-- Witness for `C5_latlon_swap_correction`: the three range cases at
concrete parsed pairs. -/
theorem C5_latlon_swap_correction_witness :
    locFallback 48 2 none none = (some 48, some 2)
    ∧ locFallback 100 45 none none = (some 45, some 100)
    ∧ locFallback (91/2) 200 (some 7) (some 8) = (some 7, some 8) := by
  refine ⟨?_, ?_, ?_⟩
  · exact C5_latlon_swap_correction.1 48 2 none none
      (by constructor <;> with_unfolding_all decide)
  · exact C5_latlon_swap_correction.2.1 100 45 none none
      (by with_unfolding_all decide) (by constructor <;> with_unfolding_all decide)
  · exact C5_latlon_swap_correction.2.2.1 (91/2) 200 (some 7) (some 8)
      (by with_unfolding_all decide) (by with_unfolding_all decide)

/-- **C5** counterexample to the claim as stated: the second version's
`parseLatLonFromLocation` neither unsets `"45.5, 200"` (both candidate
orders are invalid, yet it returns `(45.5, 200)`) nor flips `"100, 45"`
(the original order is invalid and the swapped order valid, yet it returns
`(100, 45)` unchanged). -/
theorem C5_latlon_swap_correction_counterexample :
    parseLatLonFromLocation (some "45.5, 200") = (some (91/2), some 200)
    ∧ parseLatLonFromLocation (some "100, 45") = (some 100, some 45) := by
  exact ⟨by with_unfolding_all decide, by with_unfolding_all decide⟩

theorem dropWhile_eq_self_of_all {α : Type} (p : α → Bool) (l : List α)
    (h : ∀ c ∈ l, p c = false) : l.dropWhile p = l := by
  cases l with
  | nil => rfl
  | cons c cs => simp [List.dropWhile_cons, h c (List.mem_cons_self c cs)]

theorem jsTrimChars_eq_self (l : List Char)
    (h : ∀ c ∈ l, isJsSpace c = false) : jsTrimChars l = l := by
  unfold jsTrimChars
  rw [dropWhile_eq_self_of_all _ _ h]
  rw [dropWhile_eq_self_of_all _ _ (fun c hc => h c (List.mem_reverse.mp hc))]
  exact List.reverse_reverse l

theorem isDigit_not_space (c : Char) (h : c.isDigit = true) :
    isJsSpace c = false := by
  by_cases hs : isJsSpace c = true
  · exfalso
    simp [isJsSpace] at hs
    rcases hs with ((h1 | h1) | h1) | h1 <;> subst h1 <;> revert h <;> decide
  · simpa using hs

theorem isDigit_ne_comma (c : Char) (h : c.isDigit = true) : c ≠ ',' := by
  intro he
  subst he
  exact absurd h (by decide)

theorem replaceFirst_append_comma (i f : List Char) (hi : ∀ c ∈ i, c ≠ ',') :
    replaceFirstCommaChars (i ++ ',' :: f) = i ++ '.' :: f := by
  induction i with
  | nil => rfl
  | cons c cs ih =>
    have hc : c ≠ ',' := hi c (List.mem_cons_self _ _)
    rw [List.cons_append]
    have hstep : replaceFirstCommaChars (c :: (cs ++ ',' :: f))
        = c :: replaceFirstCommaChars (cs ++ ',' :: f) := by
      rw [replaceFirstCommaChars.eq_def]
      split <;> simp_all
    rw [hstep, ih (fun x hx => hi x (List.mem_cons_of_mem c hx))]
    rfl

theorem replaceFirst_no_comma (l : List Char) (h : ∀ c ∈ l, c ≠ ',') :
    replaceFirstCommaChars l = l := by
  induction l with
  | nil => rfl
  | cons c cs ih =>
    have hc : c ≠ ',' := h c (List.mem_cons_self _ _)
    have hstep : replaceFirstCommaChars (c :: cs)
        = c :: replaceFirstCommaChars cs := by
      rw [replaceFirstCommaChars.eq_def]
      split <;> simp_all
    rw [hstep, ih (fun x hx => h x (List.mem_cons_of_mem c hx))]

/-- **C8** (amended): numeric field parsing is total and `Option`-valued in
both versions, accepts both `.` and `,` as the decimal separator (replacing
the first comma with a dot before conversion), and returns `none` for
unparseable input; the first version also returns `none` for empty or
whitespace-only input, while the second version converts the empty string to
`0` because it lacks the empty-string guard
(`useLocationsData.js`, lines 105–117 and 506–509). -/
theorem C8_toNum_separators :
    toNumV1 "" = none
    ∧ toNumV1 "   " = none
    ∧ toNumV1 "abc" = none
    ∧ toNumV2 "abc" = none
    ∧ (∀ i f : List Char, (∀ c ∈ i, c.isDigit = true) →
        (∀ c ∈ f, c.isDigit = true) →
        toNumV1 ⟨i ++ ',' :: f⟩ = toNumV1 ⟨i ++ '.' :: f⟩)
    ∧ toNumV1 "37,95" = some (759/20)
    ∧ toNumV1 "37.95" = some (759/20)
    ∧ toNumV2 "37,95" = some (759/20)
    ∧ toNumV2 "" = some 0 := by
  refine ⟨by with_unfolding_all decide, by with_unfolding_all decide,
    by with_unfolding_all decide, by with_unfolding_all decide, ?_,
    by with_unfolding_all decide, by with_unfolding_all decide,
    by with_unfolding_all decide, by with_unfolding_all decide⟩
  intro i f hi hf
  have hic : ∀ c ∈ i, c ≠ ',' := fun c hc => isDigit_ne_comma c (hi c hc)
  have hns1 : ∀ c ∈ i ++ ',' :: f, isJsSpace c = false := by
    intro c hc
    rcases List.mem_append.mp hc with h | h
    · exact isDigit_not_space c (hi c h)
    · rcases List.mem_cons.mp h with rfl | h
      · rfl
      · exact isDigit_not_space c (hf c h)
  have hns2 : ∀ c ∈ i ++ '.' :: f, isJsSpace c = false := by
    intro c hc
    rcases List.mem_append.mp hc with h | h
    · exact isDigit_not_space c (hi c h)
    · rcases List.mem_cons.mp h with rfl | h
      · rfl
      · exact isDigit_not_space c (hf c h)
  have hdot : ∀ c ∈ i ++ '.' :: f, c ≠ ',' := by
    intro c hc
    rcases List.mem_append.mp hc with h | h
    · exact hic c h
    · rcases List.mem_cons.mp h with rfl | h
      · decide
      · exact isDigit_ne_comma c (hf c h)
  have ht1 : jsTrim ⟨i ++ ',' :: f⟩ = ⟨i ++ ',' :: f⟩ :=
    congrArg String.mk (jsTrimChars_eq_self _ hns1)
  have ht2 : jsTrim ⟨i ++ '.' :: f⟩ = ⟨i ++ '.' :: f⟩ :=
    congrArg String.mk (jsTrimChars_eq_self _ hns2)
  have hne1 : (⟨i ++ ',' :: f⟩ : String) ≠ "" := by
    intro h
    have := congrArg String.data h
    simp at this
  have hne2 : (⟨i ++ '.' :: f⟩ : String) ≠ "" := by
    intro h
    have := congrArg String.data h
    simp at this
  simp only [toNumV1, ht1, ht2, if_neg hne1, if_neg hne2]
  congr 1
  show (⟨replaceFirstCommaChars (i ++ ',' :: f)⟩ : String)
      = ⟨replaceFirstCommaChars (i ++ '.' :: f)⟩
  rw [replaceFirst_append_comma i f hic, replaceFirst_no_comma _ hdot]

/-- Witness for `C8_toNum_separators`: the comma form and the dot form of
`37.95` parse identically in the first version's `toNum`. -/
theorem C8_toNum_separators_witness :
    toNumV1 ⟨['3', '7'] ++ ',' :: ['9', '5']⟩
      = toNumV1 ⟨['3', '7'] ++ '.' :: ['9', '5']⟩ := by
  exact C8_toNum_separators.2.2.2.2.1 ['3', '7'] ['9', '5']
    (by decide) (by decide)

/-- **C8** counterexample to the claim as stated: the second version's
`toNum` maps the empty string to `0`, not `null` (`Number("")` is `0` and
`Number.isFinite(0)` holds), contradicting "empty → null" for every input
path that reaches this version. -/
theorem C8_toNum_separators_counterexample :
    toNumV2 "" = some 0 ∧ toNumV2 " " = some 0 := by
  exact ⟨by with_unfolding_all decide, by with_unfolding_all decide⟩

theorem jsTrimLower_lower (s : String) :
    jsToLower (jsTrim (jsToLower s)) = jsToLower (jsTrim s) := by
  rw [jsTrim_jsToLower, jsToLower_idem]

theorem provinceMatches_lower_left (a b : String) :
    provinceMatches (jsToLower a) b = provinceMatches a b := by
  simp only [provinceMatches, jsTrimLower_lower]

theorem provinceMatches_lower_right (a b : String) :
    provinceMatches a (jsToLower b) = provinceMatches a b := by
  simp only [provinceMatches, jsTrimLower_lower]

/-- The first spec row: `{country: "FR", province: "Île-de-France", …}`. -/
def rowIleDeFrance : Row :=
  [("country", "FR"), ("province", "Île-de-France"),
   ("lat", "48.85"), ("lon", "2.35"), ("kg_n_per_year", "1000")]

/-- The second spec row: `{country: "France", province: "ile de france", …}`. -/
def rowIleLower : Row :=
  [("country", "France"), ("province", "ile de france"),
   ("lat", "48.86"), ("lon", "2.36"), ("kg_n_per_year", "500")]

/-- **C2** (amended): region matching unifies country spellings (`FR` and
`France` resolve to the same country in both versions) and province
matching is case-insensitive (lower-casing either side of
`provinceMatches` does not change the outcome), but it is NOT
accent-insensitive: accent folding is used only as a key into the Greek
canonical-name table, so `"Île-de-France"` and `"ile de france"` resolve to
different province strings, and of the two spec rows only the
`"Île-de-France"` row is included for the selected region
`(France, Île-de-France)` in either version
(`useLocationsData.js`, lines 26–103, 184–208 and 635–655). -/
theorem C2_region_matching :
    normalizeCountry "FR" = "France"
    ∧ normalizeCountry "France" = "France"
    ∧ countryMatches "FR" "France" = true
    ∧ (∀ a b, provinceMatches (jsToLower a) b = provinceMatches a b)
    ∧ (∀ a b, provinceMatches a (jsToLower b) = provinceMatches a b)
    ∧ rowIncludedV1 rowIleDeFrance "France" "Île-de-France" = true
    ∧ rowIncludedV1 rowIleLower "France" "Île-de-France" = false
    ∧ rowIncludedV2 rowIleDeFrance "France" "Île-de-France" = true
    ∧ rowIncludedV2 rowIleLower "France" "Île-de-France" = false := by
  refine ⟨by decide, by decide, by decide, provinceMatches_lower_left,
    provinceMatches_lower_right, by decide, by decide, by decide, by decide⟩

/-- **C2** counterexample to the claim as stated: the row with province
`"ile de france"` does not resolve to the same (country, province) pair as
the `"Île-de-France"` row and is excluded when the selected region is
`(France, Île-de-France)`: `normalizeProvinceName` returns both inputs
verbatim (the accent-folded key `"ile de france"` is not in the Greek
table), and `provinceMatches` compares lower-cased strings in which the
accents and hyphens still differ. -/
theorem C2_region_matching_counterexample :
    normalizeProvinceName "Île-de-France" = "Île-de-France"
    ∧ normalizeProvinceName "ile de france" = "ile de france"
    ∧ rowIncludedV1 rowIleLower "France" "Île-de-France" = false
    ∧ provinceMatches "ile de france" "Île-de-France" = false
    ∧ rowIncludedV2 rowIleLower "France" "Île-de-France" = false := by
  refine ⟨by decide, by decide, by decide, by decide, by decide⟩

theorem enum_map_snd (l : List String) : l.enum.map Prod.snd = l :=
  List.enumFrom_map_snd 0 l

theorem objSet_map_fst (row : Row) (k v : String) :
    (objSet row k v).map Prod.fst
      = if row.any (fun p => p.1 = k) then row.map Prod.fst
        else row.map Prod.fst ++ [k] := by
  unfold objSet
  by_cases h : row.any (fun p => p.1 = k)
  · rw [if_pos h, if_pos h, List.map_map]
    apply List.map_congr_left
    intro p _
    by_cases hpk : p.1 = k
    · simp [hpk]
    · simp [hpk]
  · rw [if_neg h, if_neg h, List.map_append]
    rfl

theorem mem_keys_objSet (row : Row) (k v k' : String) :
    k' ∈ (objSet row k v).map Prod.fst
      ↔ k' ∈ row.map Prod.fst ∨ k' = k := by
  rw [objSet_map_fst]
  by_cases h : row.any (fun p => p.1 = k)
  · rw [if_pos h]
    constructor
    · exact Or.inl
    · rintro (hm | rfl)
      · exact hm
      · rw [List.any_eq_true] at h
        obtain ⟨e, he, hek⟩ := h
        have he' : e.1 = k' := by simpa using hek
        exact List.mem_map.mpr ⟨e, he, he'⟩
  · rw [if_neg h]
    simp

theorem mem_keys_mkRow_fold (L : List (Nat × String))
    (val : Nat × String → String) (acc : Row) (k : String) :
    k ∈ (L.foldl (fun row iv => objSet row iv.2 (val iv)) acc).map Prod.fst
      ↔ k ∈ acc.map Prod.fst ∨ k ∈ L.map Prod.snd := by
  induction L generalizing acc with
  | nil => simp
  | cons iv L ih =>
    rw [List.foldl_cons, ih, mem_keys_objSet]
    simp [or_assoc]

theorem foldl_objSet_eq (L : List (Nat × String)) (val : Nat × String → String)
    (acc : Row) (hnd : (L.map Prod.snd).Nodup)
    (hdisj : ∀ k ∈ acc.map Prod.fst, k ∉ L.map Prod.snd) :
    L.foldl (fun row iv => objSet row iv.2 (val iv)) acc
      = acc ++ L.map (fun iv => (iv.2, val iv)) := by
  induction L generalizing acc with
  | nil => simp
  | cons iv L ih =>
    rw [List.map_cons] at hnd hdisj
    have hnew : ¬ acc.any (fun p => p.1 = iv.2) = true := by
      intro h
      rw [List.any_eq_true] at h
      obtain ⟨e, he, hk⟩ := h
      have he' : e.1 = iv.2 := by simpa using hk
      exact hdisj e.1 (List.mem_map.mpr ⟨e, he, rfl⟩)
        (he' ▸ List.mem_cons_self _ _)
    have hobj : objSet acc iv.2 (val iv) = acc ++ [(iv.2, val iv)] := by
      unfold objSet
      rw [if_neg hnew]
    rw [List.foldl_cons, hobj,
      ih (acc ++ [(iv.2, val iv)]) (List.nodup_cons.mp hnd).2 ?_]
    · rw [List.append_assoc]
      rfl
    · intro k hk
      rw [List.map_append] at hk
      rcases List.mem_append.mp hk with hk | hk
      · exact fun hmem =>
          hdisj k hk (List.mem_cons_of_mem _ hmem)
      · have hkiv : k = iv.2 := by simpa using hk
        subst hkiv
        exact (List.nodup_cons.mp hnd).1

theorem rowGet_assoc (L : Row) (pr : String × String) :
    (L.map Prod.fst).Nodup → pr ∈ L → rowGet L pr.1 = some pr.2 := by
  induction L with
  | nil => intro _ hm; cases hm
  | cons q L ih =>
    intro hnd hm
    rw [List.map_cons] at hnd
    rcases List.mem_cons.mp hm with rfl | hm'
    · show ((pr :: L).find? (fun p => p.1 = pr.1)).map (fun p => p.2) = some pr.2
      rw [List.find?_cons_of_pos _ (by simp)]
      rfl
    · have hq : ¬ (q.1 = pr.1) := by
        intro he
        have h1 : pr.1 ∈ L.map Prod.fst := List.mem_map.mpr ⟨pr, hm', rfl⟩
        exact (List.nodup_cons.mp hnd).1 (he ▸ h1)
      show ((q :: L).find? (fun p => p.1 = pr.1)).map (fun p => p.2) = some pr.2
      rw [List.find?_cons_of_neg _ (by simpa using hq)]
      exact ih (List.nodup_cons.mp hnd).2 hm'

theorem mkRow_eq (headers cols : List String) (hnd : headers.Nodup) :
    mkRow headers cols
      = headers.enum.map (fun iv => (iv.2, jsTrim (cols.getD iv.1 ""))) := by
  unfold mkRow
  rw [foldl_objSet_eq _ _ [] (by rw [enum_map_snd]; exact hnd) (by simp)]
  rfl

theorem mkRow_keys (headers cols : List String) (hnd : headers.Nodup) :
    (mkRow headers cols).map Prod.fst = headers := by
  rw [mkRow_eq headers cols hnd, List.map_map]
  exact enum_map_snd headers

theorem mem_mkRow_keys (headers cols : List String) (k : String) :
    k ∈ (mkRow headers cols).map Prod.fst ↔ k ∈ headers := by
  unfold mkRow
  rw [mem_keys_mkRow_fold, enum_map_snd]
  simp

theorem mkRow_rowGet (headers cols : List String) (hnd : headers.Nodup)
    (i : Nat) (hi : i < headers.length) :
    rowGet (mkRow headers cols) (headers.getD i "")
      = some (jsTrim (cols.getD i "")) := by
  rw [mkRow_eq headers cols hnd]
  have hget : headers.getD i "" = headers.get ⟨i, hi⟩ := by
    rw [List.getD_eq_getElem?_getD, List.getElem?_eq_getElem hi]
    rfl
  have hmem : (i, headers.getD i "") ∈ headers.enum := by
    have he : (headers.enumFrom 0)[i]? = some (i, headers.getD i "") := by
      rw [List.getElem?_enumFrom, List.getElem?_eq_getElem hi, hget]
      simp
    exact List.getElem?_mem he
  have hndk : ((headers.enum.map
      (fun iv => (iv.2, jsTrim (cols.getD iv.1 "")))).map Prod.fst).Nodup := by
    rw [List.map_map]
    show (headers.enum.map Prod.snd).Nodup
    rw [enum_map_snd]
    exact hnd
  exact rowGet_assoc _ (headers.getD i "", jsTrim (cols.getD i ""))
    hndk (List.mem_map.mpr ⟨(i, headers.getD i ""), hmem, rfl⟩)

theorem parseCSV_mem (text : String) (row : Row) (h : row ∈ parseCSV text) :
    ∃ line, row = mkRow (csvHeaders text) (splitCSVLine line) := by
  unfold parseCSV at h
  cases hl : csvLines text with
  | nil => rw [hl] at h; cases h
  | cons hd tl =>
    cases tl with
    | nil => rw [hl] at h; cases h
    | cons d ds =>
      rw [hl] at h
      obtain ⟨line, _, hline⟩ := List.mem_map.mp h
      exact ⟨line, hline.symm⟩

/-- **C10**: row-shape invariant of the hand-rolled CSV parser: every row
object returned by `parseCSV` has as its keys exactly the normalized header
names of the first line (as a list when the normalized headers are distinct,
and as a set in general); a column absent from a data line maps to the empty
string; commas inside double-quoted fields do not split a field; a doubled
quote inside a quoted field yields one literal quote character
(`useLocationsData.js`, second version, lines 454–504). -/
theorem C10_parseCSV_row_shape :
    (∀ (text : String) (row : Row), row ∈ parseCSV text →
      (csvHeaders text).Nodup → row.map Prod.fst = csvHeaders text)
    ∧ (∀ (text : String) (row : Row) (k : String), row ∈ parseCSV text →
        (k ∈ row.map Prod.fst ↔ k ∈ csvHeaders text))
    ∧ (∀ (headers cols : List String), headers.Nodup →
        ∀ i, i < headers.length → cols.length ≤ i →
          rowGet (mkRow headers cols) (headers.getD i "") = some "")
    ∧ splitCSVLine "\"a,b\",c" = ["a,b", "c"]
    ∧ splitCSVLine "\"x\"\"y\",z" = ["x\"y", "z"] := by
  refine ⟨?_, ?_, ?_, by decide, by decide⟩
  · intro text row h hnd
    obtain ⟨line, rfl⟩ := parseCSV_mem text row h
    exact mkRow_keys _ _ hnd
  · intro text row k h
    obtain ⟨line, rfl⟩ := parseCSV_mem text row h
    exact mem_mkRow_keys _ _ k
  · intro headers cols hnd i hi hcols
    have hd : cols.getD i "" = "" := by
      rw [List.getD_eq_getElem?_getD, List.getElem?_eq_none hcols]
      rfl
    have := mkRow_rowGet headers cols hnd i hi
    rw [hd] at this
    exact this

/-- The CSV text of the `C10` witness: header `Name,Lat Lon!`, one full data
line with a quoted comma and a doubled quote, one short data line. -/
def csvWitnessText : String := "Name,Lat Lon!\n\"a,b\",\"x\"\"y\"\nonly"

/-- Witness for `C10_parseCSV_row_shape` on a concrete CSV text: both rows
carry exactly the normalized keys `name` and `lat_lon`, the quoted comma
and doubled quote are parsed into field values, and the short row's missing
column is the empty string. -/
theorem C10_parseCSV_row_shape_witness :
    csvHeaders csvWitnessText = ["name", "lat_lon"]
    ∧ parseCSV csvWitnessText
        = [[("name", "a,b"), ("lat_lon", "x\"y")], [("name", "only"), ("lat_lon", "")]]
    ∧ ((parseCSV csvWitnessText).getD 0 []).map Prod.fst = csvHeaders csvWitnessText
    ∧ rowGet (mkRow ["name", "lat_lon"] ["only"]) "lat_lon" = some "" := by
  refine ⟨by with_unfolding_all decide, by with_unfolding_all decide, ?_, ?_⟩
  · exact C10_parseCSV_row_shape.1 csvWitnessText _
      (by with_unfolding_all decide) (by with_unfolding_all decide)
  · have h := C10_parseCSV_row_shape.2.2.1 ["name", "lat_lon"] ["only"]
      (by decide) 1 (by decide) (by decide)
    simpa using h
